import Mathlib

/-!
Shallow embedding of the ACE-OAuth message model of `dcaf-rs`
(`src/model/ace/mod.rs`): the four message types
(`AuthServerRequestCreationHint`, `AccessTokenRequest`, `AccessTokenResponse`,
`ErrorResponse`), the `ErrorCode` enumeration, and their
`as_cbor_map` / `try_from_cbor_map` codec operations, together with the
value types and helpers they use.

Rust machine integers are embedded as `Nat` / `Int` with explicit range
checks where the source performs checked conversions (`try_into`).
Fallible operations return `Option`, mirroring the source's
`Option` / early-`return None` style.
-/

namespace Dcaf

/-- The CBOR value type (`ciborium::value::Value`) as consumed and produced
by the codec: integers, byte strings, text strings, booleans, null, tagged
values, arrays and maps.  (The float kind is irrelevant to every decode arm
in the model and is omitted.) -/
inductive Value where
  | integer (i : Int)
  | bytes (b : List Nat)
  | text (t : String)
  | bool (b : Bool)
  | null
  | tag (n : Nat) (v : Value)
  | array (xs : List Value)
  | map (xs : List (Value × Value))

/-- The `ByteString` type wraps an arbitrary byte sequence (`Vec<u8>`); equality is
byte-wise. -/
abbrev ByteString := List Nat

/-- The `TextOrByteString` union: two-variant union of a UTF-8 string and a byte
string; exactly one variant is active. -/
inductive TextOrByteString where
  | TextString (s : String)
  | ByteString (b : ByteString)
  deriving DecidableEq

/-- Serialization of a `TextOrByteString` to its wire value: the text
variant serializes as a CBOR text string, the bytes variant as a CBOR byte
string. -/
def TextOrByteString.toValue : TextOrByteString → Value
  | .TextString s => .text s
  | .ByteString b => .bytes b

/-- Modelled from the spec: `ProofOfPossessionKey` is defined in
`src/model/cbor_values.rs`, which is not among the sources here.  Spec §3
describes it as "an opaque nested tag-indexed map (its own field registry)
... a cryptographic key reference or embedded key material", and §4.2 says
it follows the identical closed-world map codec contract.  We model it as a
key reference: a single required key-identifier field held at tag 3,
decoded by the same fail-on-unknown-tag / fail-on-wrong-shape loop the
message types use. -/
structure ProofOfPossessionKey where
  key_id : ByteString
  deriving DecidableEq

/-- Modelled from the spec: encoding of a `ProofOfPossessionKey` as a
nested CBOR map (`to_ciborium_map` in the source), per spec §4.2: "encode
as a nested map (itself built from a tag-indexed field table)". -/
def ProofOfPossessionKey.to_ciborium_map (p : ProofOfPossessionKey) : Value :=
  .map [(.integer 3, .bytes p.key_id)]

/-- Modelled from the spec: decode loop of `ProofOfPossessionKey` over
normalized (tag, value) pairs; unknown tags and wrong shapes fail, and the
key reference is required for the result to be populated. -/
def ProofOfPossessionKey.decodeLoop (acc : Option ByteString) :
    List (Int × Value) → Option ProofOfPossessionKey
  | [] => acc.map (fun k => ⟨k⟩)
  | (t, v) :: rest =>
    match t, v with
    | 3, .bytes x => ProofOfPossessionKey.decodeLoop (some x) rest
    | _, _ => none

/-- Modelled from the spec: `ProofOfPossessionKey::try_from_cbor_map`. -/
def ProofOfPossessionKey.try_from_cbor_map (m : List (Int × Value)) :
    Option ProofOfPossessionKey :=
  ProofOfPossessionKey.decodeLoop none m

/-- Modelled from the spec: `AsCborMap::cbor_map_from_int` lives in
`src/model/cbor_map.rs`, not among the sources here.  Spec §4.1: "A shared
helper normalizes a generic decoded map (whose keys may arrive as any
integer-like representation) into the canonical wide-integer tag form used
by fromPairs; if any key cannot be represented as an integer, normalization
fails, which in turn fails the enclosing message decode." -/
def cbor_map_from_int : List (Value × Value) → Option (List (Int × Value))
  | [] => some []
  | (k, v) :: rest =>
    match k with
    | .integer i => (cbor_map_from_int rest).map (fun r => (i, v) :: r)
    | _ => none

/-- The wire pair sequence obtained from an `as_cbor_map` result: entries
whose value is absent are skipped (spec §6: the transcoder serializes the
sequence "skipping absent entries"). -/
def wirePairs (m : List (Int × Option Value)) : List (Int × Value) :=
  m.filterMap (fun e => e.2.map (fun v => (e.1, v)))

/-- The decode loop shared by every `try_from_cbor_map` in the source:
iterate the supplied pairs once, feeding each to the message's match-arm
step; a step that fails aborts the whole decode (`return None`), otherwise
the updated accumulator flows on and the final accumulator is returned. -/
def runPairs {α : Type} (step : α → Int × Value → Option α) :
    α → List (Int × Value) → Option α
  | acc, [] => some acc
  | acc, e :: rest =>
    match step acc e with
    | some acc' => runPairs step acc' rest
    | none => none

/-! ## AuthServerRequestCreationHint -/

/-- Message `AuthServerRequestCreationHint`: optional fields only. -/
structure AuthServerRequestCreationHint where
  auth_server : Option String := none
  kid : Option ByteString := none
  audience : Option String := none
  scope : Option TextOrByteString := none
  client_nonce : Option ByteString := none
  deriving DecidableEq

/-- Encoding `AuthServerRequestCreationHint::as_cbor_map`, with each field carried
to the wire value its serialization produces (text → text string, byte
string → byte string, scope → per active variant). -/
def AuthServerRequestCreationHint.as_cbor_map
    (h : AuthServerRequestCreationHint) : List (Int × Option Value) :=
  [ (1, h.auth_server.map Value.text),
    (2, h.kid.map Value.bytes),
    (5, h.audience.map Value.text),
    (9, h.scope.map TextOrByteString.toValue),
    (39, h.client_nonce.map Value.bytes) ]

/-- One iteration of `AuthServerRequestCreationHint::try_from_cbor_map`'s
loop: the match over (tag, value). -/
def AuthServerRequestCreationHint.step (hint : AuthServerRequestCreationHint) :
    Int × Value → Option AuthServerRequestCreationHint
  | (1, .text x) => some { hint with auth_server := some x }
  | (2, .bytes x) => some { hint with kid := some x }
  | (5, .text x) => some { hint with audience := some x }
  | (9, .text x) => some { hint with scope := some (.TextString x) }
  | (9, .bytes x) => some { hint with scope := some (.ByteString x) }
  | (39, .bytes x) => some { hint with client_nonce := some x }
  | _ => none

/-- Decoding `AuthServerRequestCreationHint::try_from_cbor_map`. -/
def AuthServerRequestCreationHint.try_from_cbor_map
    (m : List (Int × Value)) : Option AuthServerRequestCreationHint :=
  runPairs AuthServerRequestCreationHint.step {} m

/-- The (tag, value-shape) combinations `AuthServerRequestCreationHint`'s
decode match accepts; everything else falls to the catch-all `return None`
arm. -/
def AuthServerRequestCreationHint.shapeOk : Int × Value → Bool
  | (1, .text _) => true
  | (2, .bytes _) => true
  | (5, .text _) => true
  | (9, .text _) => true
  | (9, .bytes _) => true
  | (39, .bytes _) => true
  | _ => false

/-! ## AccessTokenRequest -/

/-- Message `AccessTokenRequest`.  `grant_type` is a `u32` in the source, embedded
as `Nat` (in-range by construction on decode); `client_id` is a plain
`String` defaulting to the empty string. -/
structure AccessTokenRequest where
  grant_type : Option Nat := none
  audience : Option String := none
  redirect_uri : Option String := none
  client_nonce : Option ByteString := none
  scope : Option TextOrByteString := none
  ace_profile : Option Unit := none
  req_cnf : Option ProofOfPossessionKey := none
  client_id : String := ""
  deriving DecidableEq

/-- Encoding `AccessTokenRequest::as_cbor_map` (tags 4, 5, 9, 24, 27, 33, 38, 39;
`client_id` always present, `ace_profile` serialized as null). -/
def AccessTokenRequest.as_cbor_map (r : AccessTokenRequest) :
    List (Int × Option Value) :=
  [ (4, r.req_cnf.map ProofOfPossessionKey.to_ciborium_map),
    (5, r.audience.map Value.text),
    (9, r.scope.map TextOrByteString.toValue),
    (24, some (Value.text r.client_id)),
    (27, r.redirect_uri.map Value.text),
    (33, r.grant_type.map (fun n => Value.integer n)),
    (38, r.ace_profile.map (fun _ => Value.null)),
    (39, r.client_nonce.map Value.bytes) ]

/-- One iteration of `AccessTokenRequest::try_from_cbor_map`'s loop.  At
tag 4 the value must be a map; its keys are normalized by
`cbor_map_from_int` (failure aborts), and the nested
`ProofOfPossessionKey::try_from_cbor_map` result — `Some` or `None` — is
assigned to `req_cnf` as in the source.  Tag 33 performs the checked `u32`
narrowing. -/
def AccessTokenRequest.step (request : AccessTokenRequest) :
    Int × Value → Option AccessTokenRequest
  | (4, .map x) =>
    match cbor_map_from_int x with
    | some pop_map =>
      some { request with req_cnf := ProofOfPossessionKey.try_from_cbor_map pop_map }
    | none => none
  | (5, .text x) => some { request with audience := some x }
  | (9, .text x) => some { request with scope := some (.TextString x) }
  | (9, .bytes x) => some { request with scope := some (.ByteString x) }
  | (24, .text x) => some { request with client_id := x }
  | (27, .text x) => some { request with redirect_uri := some x }
  | (33, .integer x) =>
    if 0 ≤ x ∧ x < 2 ^ 32 then some { request with grant_type := some x.toNat }
    else none
  | (38, .null) => some { request with ace_profile := some () }
  | (39, .bytes x) => some { request with client_nonce := some x }
  | _ => none

/-- Decoding `AccessTokenRequest::try_from_cbor_map`. -/
def AccessTokenRequest.try_from_cbor_map (m : List (Int × Value)) :
    Option AccessTokenRequest :=
  runPairs AccessTokenRequest.step {} m

/-- The (tag, value-shape) combinations `AccessTokenRequest`'s decode
match accepts. -/
def AccessTokenRequest.shapeOk : Int × Value → Bool
  | (4, .map _) => true
  | (5, .text _) => true
  | (9, .text _) => true
  | (9, .bytes _) => true
  | (24, .text _) => true
  | (27, .text _) => true
  | (33, .integer _) => true
  | (38, .null) => true
  | (39, .bytes _) => true
  | _ => false

/-! ## AccessTokenResponse -/

/-- Message `AccessTokenResponse`.  `expires_in` is a `u32` (embedded as `Nat`),
`token_type` and `ace_profile` are `i32` (embedded as `Int`). -/
structure AccessTokenResponse where
  access_token : ByteString := []
  expires_in : Option Nat := none
  scope : Option TextOrByteString := none
  token_type : Option Int := none
  refresh_token : Option ByteString := none
  ace_profile : Option Int := none
  cnf : Option ProofOfPossessionKey := none
  rs_cnf : Option ProofOfPossessionKey := none
  deriving DecidableEq

/-- Encoding `AccessTokenResponse::as_cbor_map` (tags 1, 2, 8, 9, 34, 37, 38, 41;
`access_token` always present). -/
def AccessTokenResponse.as_cbor_map (r : AccessTokenResponse) :
    List (Int × Option Value) :=
  [ (1, some (Value.bytes r.access_token)),
    (2, r.expires_in.map (fun n => Value.integer n)),
    (8, r.cnf.map ProofOfPossessionKey.to_ciborium_map),
    (9, r.scope.map TextOrByteString.toValue),
    (34, r.token_type.map Value.integer),
    (37, r.refresh_token.map Value.bytes),
    (38, r.ace_profile.map Value.integer),
    (41, r.rs_cnf.map ProofOfPossessionKey.to_ciborium_map) ]

/-- One iteration of `AccessTokenResponse::try_from_cbor_map`'s loop.
Tags 8 and 41 nest a `ProofOfPossessionKey` exactly as tag 4 of the
request does; tag 2 performs the checked `u32` narrowing; tags 34 and 38
perform the checked `i32` narrowing. -/
def AccessTokenResponse.step (response : AccessTokenResponse) :
    Int × Value → Option AccessTokenResponse
  | (1, .bytes x) => some { response with access_token := x }
  | (2, .integer x) =>
    if 0 ≤ x ∧ x < 2 ^ 32 then some { response with expires_in := some x.toNat }
    else none
  | (8, .map x) =>
    match cbor_map_from_int x with
    | some pop_map =>
      some { response with cnf := ProofOfPossessionKey.try_from_cbor_map pop_map }
    | none => none
  | (9, .bytes x) => some { response with scope := some (.ByteString x) }
  | (9, .text x) => some { response with scope := some (.TextString x) }
  | (34, .integer x) =>
    if -2 ^ 31 ≤ x ∧ x < 2 ^ 31 then some { response with token_type := some x }
    else none
  | (37, .bytes x) => some { response with refresh_token := some x }
  | (38, .integer x) =>
    if -2 ^ 31 ≤ x ∧ x < 2 ^ 31 then some { response with ace_profile := some x }
    else none
  | (41, .map x) =>
    match cbor_map_from_int x with
    | some pop_map =>
      some { response with rs_cnf := ProofOfPossessionKey.try_from_cbor_map pop_map }
    | none => none
  | _ => none

/-- Decoding `AccessTokenResponse::try_from_cbor_map`. -/
def AccessTokenResponse.try_from_cbor_map (m : List (Int × Value)) :
    Option AccessTokenResponse :=
  runPairs AccessTokenResponse.step {} m

/-- The (tag, value-shape) combinations `AccessTokenResponse`'s decode
match accepts. -/
def AccessTokenResponse.shapeOk : Int × Value → Bool
  | (1, .bytes _) => true
  | (2, .integer _) => true
  | (8, .map _) => true
  | (9, .bytes _) => true
  | (9, .text _) => true
  | (34, .integer _) => true
  | (37, .bytes _) => true
  | (38, .integer _) => true
  | (41, .map _) => true
  | _ => false

/-! ## ErrorCode and ErrorResponse -/

/-- The eight-variant `ErrorCode` enumeration. -/
inductive ErrorCode where
  | InvalidRequest
  | InvalidClient
  | InvalidGrant
  | UnauthorizedClient
  | UnsupportedGrantType
  | InvalidScope
  | UnsupportedPopKey
  | IncompatibleAceProfiles
  deriving DecidableEq

/-- Conversion `impl TryFrom<u8> for ErrorCode`: integers 1–8 map to the variants,
everything else is an error (embedded as `none`). -/
def ErrorCode.try_from : Nat → Option ErrorCode
  | 1 => some .InvalidRequest
  | 2 => some .InvalidClient
  | 3 => some .InvalidGrant
  | 4 => some .UnauthorizedClient
  | 5 => some .UnsupportedGrantType
  | 6 => some .InvalidScope
  | 7 => some .UnsupportedPopKey
  | 8 => some .IncompatibleAceProfiles
  | _ => none

/-- Conversion `impl From<&ErrorCode> for u8`. -/
def u8_from_error_code : ErrorCode → Nat
  | .InvalidRequest => 1
  | .InvalidClient => 2
  | .InvalidGrant => 3
  | .UnauthorizedClient => 4
  | .UnsupportedGrantType => 5
  | .InvalidScope => 6
  | .UnsupportedPopKey => 7
  | .IncompatibleAceProfiles => 8

/-- Conversion `impl TryFrom<i128> for ErrorCode`: first the checked narrowing to
`u8`, then the `u8` conversion. -/
def ErrorCode.try_from_i128 (v : Int) : Option ErrorCode :=
  if 0 ≤ v ∧ v < 256 then ErrorCode.try_from v.toNat else none

/-- Message `ErrorResponse`: required `error`, optional description and URI. -/
structure ErrorResponse where
  error : ErrorCode
  error_description : Option String := none
  error_uri : Option String := none
  deriving DecidableEq

/-- Encoding `ErrorResponse::as_cbor_map` (tags 30, 31, 32; the error code is
serialized as its `u8` wire integer). -/
def ErrorResponse.as_cbor_map (r : ErrorResponse) : List (Int × Option Value) :=
  [ (30, some (Value.integer (u8_from_error_code r.error))),
    (31, r.error_description.map Value.text),
    (32, r.error_uri.map Value.text) ]

/-- The loop state of `ErrorResponse::try_from_cbor_map`: the three local
accumulators `maybe_error`, `error_description`, `error_uri`. -/
structure ErrorResponseAcc where
  maybe_error : Option ErrorCode := none
  error_description : Option String := none
  error_uri : Option String := none

/-- One iteration of `ErrorResponse::try_from_cbor_map`'s loop.  At tag 30
the checked narrowing to `u8` must succeed (else the whole decode fails);
the subsequent `ErrorCode` conversion's result — `Some` or `None` — is
assigned to `maybe_error` as in the source (`.ok()`), so a later valid
entry can overwrite an earlier invalid one. -/
def ErrorResponse.step (acc : ErrorResponseAcc) :
    Int × Value → Option ErrorResponseAcc
  | (30, .integer x) =>
    if 0 ≤ x ∧ x < 256 then
      some { acc with maybe_error := ErrorCode.try_from x.toNat }
    else none
  | (31, .text x) => some { acc with error_description := some x }
  | (32, .text x) => some { acc with error_uri := some x }
  | _ => none

/-- Decoding `ErrorResponse::try_from_cbor_map`: run the loop, then require
`maybe_error` to be populated. -/
def ErrorResponse.try_from_cbor_map (m : List (Int × Value)) :
    Option ErrorResponse :=
  (runPairs ErrorResponse.step {} m).bind
    (fun acc => acc.maybe_error.map
      (fun error => { error := error,
                      error_description := acc.error_description,
                      error_uri := acc.error_uri }))

/-- The (tag, value-shape) combinations `ErrorResponse`'s decode match
accepts. -/
def ErrorResponse.shapeOk : Int × Value → Bool
  | (30, .integer _) => true
  | (31, .text _) => true
  | (32, .text _) => true
  | _ => false

/-! ## Generic lemmas about the decode loop -/

theorem runPairs_cons_some {α : Type} (step : α → Int × Value → Option α)
    {acc acc' : α} {e : Int × Value} (rest : List (Int × Value))
    (h : step acc e = some acc') :
    runPairs step acc (e :: rest) = runPairs step acc' rest := by
  simp only [runPairs, h]

theorem runPairs_none_of_mem {α : Type} (step : α → Int × Value → Option α)
    {l : List (Int × Value)} {e : Int × Value} (he : e ∈ l)
    (hfail : ∀ a, step a e = none) (acc : α) :
    runPairs step acc l = none := by
  induction l generalizing acc with
  | nil => cases he
  | cons hd tl ih =>
    rcases List.mem_cons.mp he with rfl | he'
    · simp only [runPairs, hfail acc]
    · cases h : step acc hd with
      | none => simp only [runPairs, h]
      | some acc' => simpa only [runPairs, h] using ih he' acc'

theorem runPairs_preserve {α : Type} (step : α → Int × Value → Option α)
    (P : α → Prop) {l : List (Int × Value)}
    (hpres : ∀ a e a', e ∈ l → step a e = some a' → P a → P a')
    {acc : α} {r : α} (hrun : runPairs step acc l = some r) (hacc : P acc) :
    P r := by
  induction l generalizing acc with
  | nil =>
    simp only [runPairs, Option.some.injEq] at hrun
    exact hrun ▸ hacc
  | cons hd tl ih =>
    simp only [runPairs] at hrun
    cases h : step acc hd with
    | none => rw [h] at hrun; cases hrun
    | some acc' =>
      rw [h] at hrun
      exact ih (fun a e a' hme => hpres a e a' (List.mem_cons_of_mem _ hme)) hrun
        (hpres acc hd acc' (List.mem_cons_self _ _) h hacc)

theorem runPairs_some_step_ok {α : Type} (step : α → Int × Value → Option α)
    {l : List (Int × Value)} {acc r : α}
    (hrun : runPairs step acc l = some r) :
    ∀ e ∈ l, ∃ a a', step a e = some a' := by
  induction l generalizing acc with
  | nil => intro e he; cases he
  | cons hd tl ih =>
    intro e he
    simp only [runPairs] at hrun
    cases h : step acc hd with
    | none => rw [h] at hrun; cases hrun
    | some acc' =>
      rw [h] at hrun
      rcases List.mem_cons.mp he with rfl | he'
      · exact ⟨acc, acc', h⟩
      · exact ih hrun e he'

theorem runPairs_mem_forward {α : Type} (step : α → Int × Value → Option α)
    (P : α → Prop) {e₀ : Int × Value} {l : List (Int × Value)}
    (hpres : ∀ a e a', step a e = some a' → P a → P a')
    (hest : ∀ a a', step a e₀ = some a' → P a')
    (he : e₀ ∈ l) {acc r : α} (hrun : runPairs step acc l = some r) : P r := by
  induction l generalizing acc with
  | nil => cases he
  | cons hd tl ih =>
    simp only [runPairs] at hrun
    cases h : step acc hd with
    | none => rw [h] at hrun; cases hrun
    | some acc' =>
      rw [h] at hrun
      rcases List.mem_cons.mp he with rfl | he'
      · exact runPairs_preserve step P (fun a e a' _ => hpres a e a') hrun (hest acc acc' h)
      · exact ih he' hrun

theorem runPairs_establish {α : Type} (step : α → Int × Value → Option α)
    (Q : α → Prop) {l : List (Int × Value)} {acc r : α}
    (hrun : runPairs step acc l = some r) (hr : Q r) (hacc : ¬ Q acc) :
    ∃ e ∈ l, ∃ a a', step a e = some a' ∧ ¬ Q a ∧ Q a' := by
  induction l generalizing acc with
  | nil =>
    simp only [runPairs, Option.some.injEq] at hrun
    exact absurd (hrun ▸ hr) hacc
  | cons hd tl ih =>
    simp only [runPairs] at hrun
    cases h : step acc hd with
    | none => rw [h] at hrun; cases hrun
    | some acc' =>
      rw [h] at hrun
      by_cases hq : Q acc'
      · exact ⟨hd, List.mem_cons_self _ _, acc, acc', h, hacc, hq⟩
      · rcases ih hrun hq with ⟨e, he, a, a', hs, hna, ha⟩
        exact ⟨e, List.mem_cons_of_mem _ he, a, a', hs, hna, ha⟩

/-! ## Per-message step lemmas -/

theorem AuthServerRequestCreationHint.hint_step_none_of_not_shapeOk
    {e : Int × Value} (h : AuthServerRequestCreationHint.shapeOk e = false)
    (a : AuthServerRequestCreationHint) :
    AuthServerRequestCreationHint.step a e = none := by
  unfold AuthServerRequestCreationHint.step
  split <;> simp_all [AuthServerRequestCreationHint.shapeOk]

theorem AccessTokenRequest.request_step_none_of_not_shapeOk
    {e : Int × Value} (h : AccessTokenRequest.shapeOk e = false)
    (a : AccessTokenRequest) :
    AccessTokenRequest.step a e = none := by
  unfold AccessTokenRequest.step
  split <;> simp_all [AccessTokenRequest.shapeOk]

theorem AccessTokenResponse.response_step_none_of_not_shapeOk
    {e : Int × Value} (h : AccessTokenResponse.shapeOk e = false)
    (a : AccessTokenResponse) :
    AccessTokenResponse.step a e = none := by
  unfold AccessTokenResponse.step
  split <;> simp_all [AccessTokenResponse.shapeOk]

theorem ErrorResponse.error_step_none_of_not_shapeOk
    {e : Int × Value} (h : ErrorResponse.shapeOk e = false)
    (a : ErrorResponseAcc) :
    ErrorResponse.step a e = none := by
  unfold ErrorResponse.step
  split <;> simp_all [ErrorResponse.shapeOk]

theorem ErrorCode.try_from_add_nine (k : Nat) : ErrorCode.try_from (k + 9) = none := rfl

/-! ## Claims -/

/-- C4: `u8::from(&ErrorCode)` and `ErrorCode::try_from` form a bijection
between the eight `ErrorCode` variants and the integers 1 through 8 (each
inverse to the other), and `ErrorCode::try_from` fails for every integer
outside 1–8 — in particular 0, 9 and 255 — never falling back to a default
variant. -/
theorem C4_error_code_bijection :
    (∀ c : ErrorCode, ErrorCode.try_from (u8_from_error_code c) = some c) ∧
    (∀ (n : Nat) (c : ErrorCode), ErrorCode.try_from n = some c →
      u8_from_error_code c = n ∧ 1 ≤ n ∧ n ≤ 8) ∧
    (∀ n : Nat, n = 0 ∨ 9 ≤ n → ErrorCode.try_from n = none) := by
  refine ⟨fun c => by cases c <;> rfl, ?_, ?_⟩
  · intro n c h
    by_cases hn : 9 ≤ n
    · obtain ⟨k, rfl⟩ : ∃ k, n = k + 9 := ⟨n - 9, by omega⟩
      rw [ErrorCode.try_from_add_nine] at h
      cases h
    · interval_cases n <;>
        simp only [ErrorCode.try_from, Option.some.injEq, reduceCtorEq] at h <;>
        subst h <;> exact ⟨rfl, by omega, by omega⟩
  · intro n hn
    rcases hn with rfl | hn
    · rfl
    · obtain ⟨k, rfl⟩ : ∃ k, n = k + 9 := ⟨n - 9, by omega⟩
      exact ErrorCode.try_from_add_nine k

/-- Witness for C4: the bijection evaluated at `InvalidClient` ↔ 2, and
failure at 255. -/
theorem C4_error_code_bijection_witness :
    u8_from_error_code ErrorCode.InvalidClient = 2 ∧
    ErrorCode.try_from 255 = none :=
  ⟨(C4_error_code_bijection.2.1 2 ErrorCode.InvalidClient rfl).1,
   C4_error_code_bijection.2.2 255 (Or.inr (by norm_num))⟩

/-- C2: for every message type and every input pair sequence, a pair whose
tag is outside the message's known tag set, or whose tag is known but whose
value kind does not match the field's expected shape (`shapeOk` is the
message's table of accepted (tag, kind) combinations), makes
`try_from_cbor_map` return `none`: a partially populated struct is never
returned. -/
theorem C2_unknown_tag_or_shape_rejected :
    (∀ (l : List (Int × Value)) (e : Int × Value), e ∈ l →
      AuthServerRequestCreationHint.shapeOk e = false →
      AuthServerRequestCreationHint.try_from_cbor_map l = none) ∧
    (∀ (l : List (Int × Value)) (e : Int × Value), e ∈ l →
      AccessTokenRequest.shapeOk e = false →
      AccessTokenRequest.try_from_cbor_map l = none) ∧
    (∀ (l : List (Int × Value)) (e : Int × Value), e ∈ l →
      AccessTokenResponse.shapeOk e = false →
      AccessTokenResponse.try_from_cbor_map l = none) ∧
    (∀ (l : List (Int × Value)) (e : Int × Value), e ∈ l →
      ErrorResponse.shapeOk e = false →
      ErrorResponse.try_from_cbor_map l = none) := by
  refine ⟨?_, ?_, ?_, ?_⟩ <;> intro l e he h
  · exact runPairs_none_of_mem _ he
      (AuthServerRequestCreationHint.hint_step_none_of_not_shapeOk h) _
  · exact runPairs_none_of_mem _ he
      (AccessTokenRequest.request_step_none_of_not_shapeOk h) _
  · exact runPairs_none_of_mem _ he
      (AccessTokenResponse.response_step_none_of_not_shapeOk h) _
  · unfold ErrorResponse.try_from_cbor_map
    rw [runPairs_none_of_mem _ he (ErrorResponse.error_step_none_of_not_shapeOk h) _]
    rfl

/-- Witness for C2: a pair with unknown tag 99 makes every message type's
decode fail. -/
theorem C2_unknown_tag_or_shape_rejected_witness :
    AuthServerRequestCreationHint.try_from_cbor_map [(99, Value.null)] = none ∧
    AccessTokenRequest.try_from_cbor_map [(99, Value.null)] = none ∧
    AccessTokenResponse.try_from_cbor_map [(99, Value.null)] = none ∧
    ErrorResponse.try_from_cbor_map [(99, Value.null)] = none :=
  ⟨C2_unknown_tag_or_shape_rejected.1 [(99, Value.null)] (99, Value.null)
      (List.mem_singleton.mpr rfl) rfl,
   C2_unknown_tag_or_shape_rejected.2.1 [(99, Value.null)] (99, Value.null)
      (List.mem_singleton.mpr rfl) rfl,
   C2_unknown_tag_or_shape_rejected.2.2.1 [(99, Value.null)] (99, Value.null)
      (List.mem_singleton.mpr rfl) rfl,
   C2_unknown_tag_or_shape_rejected.2.2.2 [(99, Value.null)] (99, Value.null)
      (List.mem_singleton.mpr rfl) rfl⟩

/-- C1: for each of the four message types, for every instance in which
every optional field is set (field values drawn from the corresponding Rust
types, so the integer fields carry their `u32` / `i32` range bounds),
decoding the wire pair sequence produced by `as_cbor_map` via
`try_from_cbor_map` returns `some` of an equal instance. -/
theorem C1_roundtrip_all_fields_set :
    (∀ (a : String) (k : ByteString) (au : String) (sc : TextOrByteString)
        (cn : ByteString),
      AuthServerRequestCreationHint.try_from_cbor_map
        (wirePairs (AuthServerRequestCreationHint.as_cbor_map
          ⟨some a, some k, some au, some sc, some cn⟩)) =
      some ⟨some a, some k, some au, some sc, some cn⟩) ∧
    (∀ (gt : Nat) (au ru : String) (cn : ByteString) (sc : TextOrByteString)
        (pk : ProofOfPossessionKey) (cid : String), gt < 2 ^ 32 →
      AccessTokenRequest.try_from_cbor_map
        (wirePairs (AccessTokenRequest.as_cbor_map
          ⟨some gt, some au, some ru, some cn, some sc, some (), some pk, cid⟩)) =
      some ⟨some gt, some au, some ru, some cn, some sc, some (), some pk, cid⟩) ∧
    (∀ (tok : ByteString) (ei : Nat) (sc : TextOrByteString) (tt : Int)
        (rt : ByteString) (ap : Int) (pk1 pk2 : ProofOfPossessionKey),
      ei < 2 ^ 32 → -2 ^ 31 ≤ tt → tt < 2 ^ 31 → -2 ^ 31 ≤ ap → ap < 2 ^ 31 →
      AccessTokenResponse.try_from_cbor_map
        (wirePairs (AccessTokenResponse.as_cbor_map
          ⟨tok, some ei, some sc, some tt, some rt, some ap, some pk1, some pk2⟩)) =
      some ⟨tok, some ei, some sc, some tt, some rt, some ap, some pk1, some pk2⟩) ∧
    (∀ (err : ErrorCode) (d u : String),
      ErrorResponse.try_from_cbor_map
        (wirePairs (ErrorResponse.as_cbor_map ⟨err, some d, some u⟩)) =
      some ⟨err, some d, some u⟩) := by
  refine ⟨?_, ?_, ?_, ?_⟩
  · intro a k au sc cn
    cases sc <;> rfl
  · intro gt au ru cn sc pk cid hgt
    obtain ⟨pkid⟩ := pk
    have h33 : (0 : Int) ≤ (gt : Int) ∧ (gt : Int) < 2 ^ 32 :=
      ⟨Int.natCast_nonneg gt, by exact_mod_cast hgt⟩
    have r4 : ∀ {f1 : Option Nat} {f2 f3 : Option String} {f4 : Option ByteString}
        {f5 : Option TextOrByteString} {f6 : Option Unit}
        {f7 : Option ProofOfPossessionKey} {f8 : String} (kid : ByteString),
        AccessTokenRequest.step ⟨f1, f2, f3, f4, f5, f6, f7, f8⟩
            (4, Value.map [(Value.integer 3, Value.bytes kid)]) =
          some ⟨f1, f2, f3, f4, f5, f6, some ⟨kid⟩, f8⟩ := fun _ => rfl
    have r5 : ∀ {f1 : Option Nat} {f2 f3 : Option String} {f4 : Option ByteString}
        {f5 : Option TextOrByteString} {f6 : Option Unit}
        {f7 : Option ProofOfPossessionKey} {f8 : String} (t : String),
        AccessTokenRequest.step ⟨f1, f2, f3, f4, f5, f6, f7, f8⟩ (5, Value.text t) =
          some ⟨f1, some t, f3, f4, f5, f6, f7, f8⟩ := fun _ => rfl
    have r9t : ∀ {f1 : Option Nat} {f2 f3 : Option String} {f4 : Option ByteString}
        {f5 : Option TextOrByteString} {f6 : Option Unit}
        {f7 : Option ProofOfPossessionKey} {f8 : String} (t : String),
        AccessTokenRequest.step ⟨f1, f2, f3, f4, f5, f6, f7, f8⟩ (9, Value.text t) =
          some ⟨f1, f2, f3, f4, some (.TextString t), f6, f7, f8⟩ := fun _ => rfl
    have r9b : ∀ {f1 : Option Nat} {f2 f3 : Option String} {f4 : Option ByteString}
        {f5 : Option TextOrByteString} {f6 : Option Unit}
        {f7 : Option ProofOfPossessionKey} {f8 : String} (b : ByteString),
        AccessTokenRequest.step ⟨f1, f2, f3, f4, f5, f6, f7, f8⟩ (9, Value.bytes b) =
          some ⟨f1, f2, f3, f4, some (.ByteString b), f6, f7, f8⟩ := fun _ => rfl
    have r24 : ∀ {f1 : Option Nat} {f2 f3 : Option String} {f4 : Option ByteString}
        {f5 : Option TextOrByteString} {f6 : Option Unit}
        {f7 : Option ProofOfPossessionKey} {f8 : String} (t : String),
        AccessTokenRequest.step ⟨f1, f2, f3, f4, f5, f6, f7, f8⟩ (24, Value.text t) =
          some ⟨f1, f2, f3, f4, f5, f6, f7, t⟩ := fun _ => rfl
    have r27 : ∀ {f1 : Option Nat} {f2 f3 : Option String} {f4 : Option ByteString}
        {f5 : Option TextOrByteString} {f6 : Option Unit}
        {f7 : Option ProofOfPossessionKey} {f8 : String} (t : String),
        AccessTokenRequest.step ⟨f1, f2, f3, f4, f5, f6, f7, f8⟩ (27, Value.text t) =
          some ⟨f1, f2, some t, f4, f5, f6, f7, f8⟩ := fun _ => rfl
    have r33 : ∀ {f1 : Option Nat} {f2 f3 : Option String} {f4 : Option ByteString}
        {f5 : Option TextOrByteString} {f6 : Option Unit}
        {f7 : Option ProofOfPossessionKey} {f8 : String},
        AccessTokenRequest.step ⟨f1, f2, f3, f4, f5, f6, f7, f8⟩ (33, Value.integer gt) =
          some ⟨some gt, f2, f3, f4, f5, f6, f7, f8⟩ := by
      intros
      simp only [AccessTokenRequest.step]
      rw [if_pos h33]
      simp
    have r38 : ∀ {f1 : Option Nat} {f2 f3 : Option String} {f4 : Option ByteString}
        {f5 : Option TextOrByteString} {f6 : Option Unit}
        {f7 : Option ProofOfPossessionKey} {f8 : String},
        AccessTokenRequest.step ⟨f1, f2, f3, f4, f5, f6, f7, f8⟩ (38, Value.null) =
          some ⟨f1, f2, f3, f4, f5, some (), f7, f8⟩ := fun {_ _ _ _ _ _ _ _} => rfl
    have r39 : ∀ {f1 : Option Nat} {f2 f3 : Option String} {f4 : Option ByteString}
        {f5 : Option TextOrByteString} {f6 : Option Unit}
        {f7 : Option ProofOfPossessionKey} {f8 : String} (b : ByteString),
        AccessTokenRequest.step ⟨f1, f2, f3, f4, f5, f6, f7, f8⟩ (39, Value.bytes b) =
          some ⟨f1, f2, f3, some b, f5, f6, f7, f8⟩ := fun _ => rfl
    cases sc with
    | TextString str =>
      show runPairs AccessTokenRequest.step ⟨none, none, none, none, none, none, none, ""⟩
        [(4, Value.map [(Value.integer 3, Value.bytes pkid)]), (5, Value.text au),
         (9, Value.text str), (24, Value.text cid), (27, Value.text ru),
         (33, Value.integer gt), (38, Value.null), (39, Value.bytes cn)] = _
      rw [runPairs_cons_some _ _ (r4 pkid), runPairs_cons_some _ _ (r5 au),
        runPairs_cons_some _ _ (r9t str), runPairs_cons_some _ _ (r24 cid),
        runPairs_cons_some _ _ (r27 ru), runPairs_cons_some _ _ r33,
        runPairs_cons_some _ _ r38, runPairs_cons_some _ _ (r39 cn)]
      rfl
    | ByteString bs =>
      show runPairs AccessTokenRequest.step ⟨none, none, none, none, none, none, none, ""⟩
        [(4, Value.map [(Value.integer 3, Value.bytes pkid)]), (5, Value.text au),
         (9, Value.bytes bs), (24, Value.text cid), (27, Value.text ru),
         (33, Value.integer gt), (38, Value.null), (39, Value.bytes cn)] = _
      rw [runPairs_cons_some _ _ (r4 pkid), runPairs_cons_some _ _ (r5 au),
        runPairs_cons_some _ _ (r9b bs), runPairs_cons_some _ _ (r24 cid),
        runPairs_cons_some _ _ (r27 ru), runPairs_cons_some _ _ r33,
        runPairs_cons_some _ _ r38, runPairs_cons_some _ _ (r39 cn)]
      rfl
  · intro tok ei sc tt rt ap pk1 pk2 hei htt1 htt2 hap1 hap2
    obtain ⟨pkid1⟩ := pk1
    obtain ⟨pkid2⟩ := pk2
    have h2 : (0 : Int) ≤ (ei : Int) ∧ (ei : Int) < 2 ^ 32 :=
      ⟨Int.natCast_nonneg ei, by exact_mod_cast hei⟩
    have s1 : ∀ {e1 : ByteString} {e2 : Option Nat} {e3 : Option TextOrByteString}
        {e4 : Option Int} {e5 : Option ByteString} {e6 : Option Int}
        {e7 e8 : Option ProofOfPossessionKey} (b : ByteString),
        AccessTokenResponse.step ⟨e1, e2, e3, e4, e5, e6, e7, e8⟩ (1, Value.bytes b) =
          some ⟨b, e2, e3, e4, e5, e6, e7, e8⟩ := fun _ => rfl
    have s2 : ∀ {e1 : ByteString} {e2 : Option Nat} {e3 : Option TextOrByteString}
        {e4 : Option Int} {e5 : Option ByteString} {e6 : Option Int}
        {e7 e8 : Option ProofOfPossessionKey},
        AccessTokenResponse.step ⟨e1, e2, e3, e4, e5, e6, e7, e8⟩ (2, Value.integer ei) =
          some ⟨e1, some ei, e3, e4, e5, e6, e7, e8⟩ := by
      intros
      simp only [AccessTokenResponse.step]
      rw [if_pos h2]
      simp
    have s8 : ∀ {e1 : ByteString} {e2 : Option Nat} {e3 : Option TextOrByteString}
        {e4 : Option Int} {e5 : Option ByteString} {e6 : Option Int}
        {e7 e8 : Option ProofOfPossessionKey} (kid : ByteString),
        AccessTokenResponse.step ⟨e1, e2, e3, e4, e5, e6, e7, e8⟩
            (8, Value.map [(Value.integer 3, Value.bytes kid)]) =
          some ⟨e1, e2, e3, e4, e5, e6, some ⟨kid⟩, e8⟩ := fun _ => rfl
    have s9t : ∀ {e1 : ByteString} {e2 : Option Nat} {e3 : Option TextOrByteString}
        {e4 : Option Int} {e5 : Option ByteString} {e6 : Option Int}
        {e7 e8 : Option ProofOfPossessionKey} (t : String),
        AccessTokenResponse.step ⟨e1, e2, e3, e4, e5, e6, e7, e8⟩ (9, Value.text t) =
          some ⟨e1, e2, some (.TextString t), e4, e5, e6, e7, e8⟩ := fun _ => rfl
    have s9b : ∀ {e1 : ByteString} {e2 : Option Nat} {e3 : Option TextOrByteString}
        {e4 : Option Int} {e5 : Option ByteString} {e6 : Option Int}
        {e7 e8 : Option ProofOfPossessionKey} (b : ByteString),
        AccessTokenResponse.step ⟨e1, e2, e3, e4, e5, e6, e7, e8⟩ (9, Value.bytes b) =
          some ⟨e1, e2, some (.ByteString b), e4, e5, e6, e7, e8⟩ := fun _ => rfl
    have s34 : ∀ {e1 : ByteString} {e2 : Option Nat} {e3 : Option TextOrByteString}
        {e4 : Option Int} {e5 : Option ByteString} {e6 : Option Int}
        {e7 e8 : Option ProofOfPossessionKey},
        AccessTokenResponse.step ⟨e1, e2, e3, e4, e5, e6, e7, e8⟩ (34, Value.integer tt) =
          some ⟨e1, e2, e3, some tt, e5, e6, e7, e8⟩ := by
      intros
      simp only [AccessTokenResponse.step]
      rw [if_pos ⟨htt1, htt2⟩]
    have s37 : ∀ {e1 : ByteString} {e2 : Option Nat} {e3 : Option TextOrByteString}
        {e4 : Option Int} {e5 : Option ByteString} {e6 : Option Int}
        {e7 e8 : Option ProofOfPossessionKey} (b : ByteString),
        AccessTokenResponse.step ⟨e1, e2, e3, e4, e5, e6, e7, e8⟩ (37, Value.bytes b) =
          some ⟨e1, e2, e3, e4, some b, e6, e7, e8⟩ := fun _ => rfl
    have s38 : ∀ {e1 : ByteString} {e2 : Option Nat} {e3 : Option TextOrByteString}
        {e4 : Option Int} {e5 : Option ByteString} {e6 : Option Int}
        {e7 e8 : Option ProofOfPossessionKey},
        AccessTokenResponse.step ⟨e1, e2, e3, e4, e5, e6, e7, e8⟩ (38, Value.integer ap) =
          some ⟨e1, e2, e3, e4, e5, some ap, e7, e8⟩ := by
      intros
      simp only [AccessTokenResponse.step]
      rw [if_pos ⟨hap1, hap2⟩]
    have s41 : ∀ {e1 : ByteString} {e2 : Option Nat} {e3 : Option TextOrByteString}
        {e4 : Option Int} {e5 : Option ByteString} {e6 : Option Int}
        {e7 e8 : Option ProofOfPossessionKey} (kid : ByteString),
        AccessTokenResponse.step ⟨e1, e2, e3, e4, e5, e6, e7, e8⟩
            (41, Value.map [(Value.integer 3, Value.bytes kid)]) =
          some ⟨e1, e2, e3, e4, e5, e6, e7, some ⟨kid⟩⟩ := fun _ => rfl
    cases sc with
    | TextString str =>
      show runPairs AccessTokenResponse.step ⟨[], none, none, none, none, none, none, none⟩
        [(1, Value.bytes tok), (2, Value.integer ei),
         (8, Value.map [(Value.integer 3, Value.bytes pkid1)]),
         (9, Value.text str), (34, Value.integer tt), (37, Value.bytes rt),
         (38, Value.integer ap), (41, Value.map [(Value.integer 3, Value.bytes pkid2)])] = _
      rw [runPairs_cons_some _ _ (s1 tok), runPairs_cons_some _ _ s2,
        runPairs_cons_some _ _ (s8 pkid1), runPairs_cons_some _ _ (s9t str),
        runPairs_cons_some _ _ s34, runPairs_cons_some _ _ (s37 rt),
        runPairs_cons_some _ _ s38, runPairs_cons_some _ _ (s41 pkid2)]
      rfl
    | ByteString bs =>
      show runPairs AccessTokenResponse.step ⟨[], none, none, none, none, none, none, none⟩
        [(1, Value.bytes tok), (2, Value.integer ei),
         (8, Value.map [(Value.integer 3, Value.bytes pkid1)]),
         (9, Value.bytes bs), (34, Value.integer tt), (37, Value.bytes rt),
         (38, Value.integer ap), (41, Value.map [(Value.integer 3, Value.bytes pkid2)])] = _
      rw [runPairs_cons_some _ _ (s1 tok), runPairs_cons_some _ _ s2,
        runPairs_cons_some _ _ (s8 pkid1), runPairs_cons_some _ _ (s9b bs),
        runPairs_cons_some _ _ s34, runPairs_cons_some _ _ (s37 rt),
        runPairs_cons_some _ _ s38, runPairs_cons_some _ _ (s41 pkid2)]
      rfl
  · intro err d u
    cases err <;> (set_option maxRecDepth 4000 in rfl)

/-- Witness for C1: the round trip evaluated on concrete fully-populated
instances of the two message types whose statement carries range
hypotheses. -/
theorem C1_roundtrip_all_fields_set_witness :
    AccessTokenRequest.try_from_cbor_map
      (wirePairs (AccessTokenRequest.as_cbor_map
        ⟨some 7, some "aud", some "uri", some [1, 2], some (.TextString "sc"),
         some (), some ⟨[3, 4]⟩, "client"⟩)) =
      some ⟨some 7, some "aud", some "uri", some [1, 2], some (.TextString "sc"),
            some (), some ⟨[3, 4]⟩, "client"⟩ ∧
    AccessTokenResponse.try_from_cbor_map
      (wirePairs (AccessTokenResponse.as_cbor_map
        ⟨[1, 2], some 3600, some (.ByteString [5]), some 1, some [6],
         some (-1), some ⟨[7]⟩, some ⟨[8]⟩⟩)) =
      some ⟨[1, 2], some 3600, some (.ByteString [5]), some 1, some [6],
            some (-1), some ⟨[7]⟩, some ⟨[8]⟩⟩ :=
  ⟨C1_roundtrip_all_fields_set.2.1 7 "aud" "uri" [1, 2] (.TextString "sc")
      ⟨[3, 4]⟩ "client" (by norm_num),
   C1_roundtrip_all_fields_set.2.2.1 [1, 2] 3600 (.ByteString [5]) 1 [6]
      (-1) ⟨[7]⟩ ⟨[8]⟩ (by norm_num) (by norm_num) (by norm_num)
      (by norm_num) (by norm_num)⟩

/-- C3: contrary to the claim, a nested proof-of-possession-key decode
failure at tags 4 / 8 / 41 does NOT fail the enclosing decode: the source
assigns the nested `try_from_cbor_map` result (`Some` or `None`) to the
field, so a map value whose keys normalize but whose content the nested
decoder rejects yields a successful decode with the field left `none`.
Only a key that fails integer normalization aborts (last conjunct). -/
theorem C3_nested_failure_swallowed :
    ProofOfPossessionKey.try_from_cbor_map [(99, Value.null)] = none ∧
    AccessTokenRequest.try_from_cbor_map
      [(4, Value.map [(Value.integer 99, Value.null)])] = some {} ∧
    AccessTokenResponse.try_from_cbor_map
      [(8, Value.map [(Value.integer 99, Value.null)])] = some {} ∧
    AccessTokenResponse.try_from_cbor_map
      [(41, Value.map [(Value.integer 99, Value.null)])] = some {} ∧
    AccessTokenRequest.try_from_cbor_map
      [(4, Value.map [(Value.null, Value.null)])] = none :=
  ⟨rfl, rfl, rfl, rfl, rfl⟩

theorem AccessTokenRequest.step_preserves_ace_profile :
    ∀ (a : AccessTokenRequest) (e : Int × Value) (a' : AccessTokenRequest),
      AccessTokenRequest.step a e = some a' →
      a.ace_profile = some () → a'.ace_profile = some () := by
  intro a e a' h hp
  unfold AccessTokenRequest.step at h
  split at h <;>
    first
      | (cases h; simp_all)
      | (split at h <;> first | (cases h; simp_all) | cases h)
      | cases h

theorem AccessTokenRequest.step_38_null_sets_ace_profile :
    ∀ (a a' : AccessTokenRequest),
      AccessTokenRequest.step a (38, Value.null) = some a' →
      a'.ace_profile = some () := by
  intro a a' h
  have hred : AccessTokenRequest.step a (38, Value.null) =
      some { a with ace_profile := some () } := rfl
  rw [hred] at h
  cases h
  rfl

/-- C5: in `AccessTokenRequest::try_from_cbor_map` a tag-38 pair decodes
successfully only when its value is the explicit null marker — any other
value kind at tag 38 fails the whole decode — and a successful decode of a
sequence containing (38, null) has `ace_profile = Some(())`. -/
theorem C5_ace_profile_presence_only :
    (∀ (l : List (Int × Value)) (v : Value), (38, v) ∈ l → v ≠ Value.null →
      AccessTokenRequest.try_from_cbor_map l = none) ∧
    (∀ (l : List (Int × Value)) (r : AccessTokenRequest), (38, Value.null) ∈ l →
      AccessTokenRequest.try_from_cbor_map l = some r →
      r.ace_profile = some ()) ∧
    AccessTokenRequest.try_from_cbor_map [(38, Value.null)] =
      some { ace_profile := some () } := by
  refine ⟨?_, ?_, rfl⟩
  · intro l v hv hne
    have hshape : AccessTokenRequest.shapeOk (38, v) = false := by
      cases v <;> simp_all [AccessTokenRequest.shapeOk]
    exact runPairs_none_of_mem _ hv
      (AccessTokenRequest.request_step_none_of_not_shapeOk hshape) _
  · intro l r hm hr
    exact runPairs_mem_forward AccessTokenRequest.step
      (fun a => a.ace_profile = some ())
      AccessTokenRequest.step_preserves_ace_profile
      (fun a a' => AccessTokenRequest.step_38_null_sets_ace_profile a a') hm hr

/-- Witness for C5: a boolean at tag 38 fails the decode; the successful
decode of a null at tag 38 has the marker set. -/
theorem C5_ace_profile_presence_only_witness :
    AccessTokenRequest.try_from_cbor_map [(38, Value.bool true)] = none ∧
    AccessTokenRequest.mk none none none none none (some ()) none "" =
      { ace_profile := some () } ∧
    (AccessTokenRequest.mk none none none none none (some ()) none "").ace_profile =
      some () :=
  ⟨C5_ace_profile_presence_only.1 [(38, Value.bool true)] (Value.bool true)
      (List.mem_singleton.mpr rfl) (fun h => Value.noConfusion h),
   rfl,
   C5_ace_profile_presence_only.2.1 [(38, Value.null)]
      (AccessTokenRequest.mk none none none none none (some ()) none "")
      (List.mem_singleton.mpr rfl) rfl⟩

theorem AccessTokenResponse.step_2_out_of_range_none :
    ∀ (a : AccessTokenResponse) (i : Int), (i < 0 ∨ 2 ^ 32 ≤ i) →
      AccessTokenResponse.step a (2, Value.integer i) = none := by
  intro a i h
  simp only [AccessTokenResponse.step]
  rw [if_neg (by omega : ¬((0 : Int) ≤ i ∧ i < 2 ^ 32))]

/-- C6: at tag 2 of `AccessTokenResponse`, an integer that does not fit an
unsigned 32-bit value makes the decode return `none`; an integer that does
fit decodes to `expires_in = Some` of exactly that value. -/
theorem C6_expires_in_checked_narrowing :
    (∀ (l : List (Int × Value)) (i : Int), (2, Value.integer i) ∈ l →
      (i < 0 ∨ 2 ^ 32 ≤ i) → AccessTokenResponse.try_from_cbor_map l = none) ∧
    (∀ i : Int, 0 ≤ i → i < 2 ^ 32 →
      AccessTokenResponse.try_from_cbor_map [(2, Value.integer i)] =
        some { expires_in := some i.toNat }) := by
  constructor
  · intro l i hm hrange
    exact runPairs_none_of_mem _ hm
      (fun a => AccessTokenResponse.step_2_out_of_range_none a i hrange) _
  · intro i h0 hlt
    have hstep : AccessTokenResponse.step {} (2, Value.integer i) =
        some { expires_in := some i.toNat } := by
      simp only [AccessTokenResponse.step]
      rw [if_pos ⟨h0, hlt⟩]
    show runPairs AccessTokenResponse.step {} [(2, Value.integer i)] = _
    rw [runPairs_cons_some _ _ hstep]
    rfl

/-- Witness for C6: 2^32 at tag 2 fails; 3600 decodes exactly. -/
theorem C6_expires_in_checked_narrowing_witness :
    AccessTokenResponse.try_from_cbor_map [(2, Value.integer (2 ^ 32))] = none ∧
    AccessTokenResponse.try_from_cbor_map [(2, Value.integer 3600)] =
      some { expires_in := some ((3600 : Int).toNat) } :=
  ⟨C6_expires_in_checked_narrowing.1 [(2, Value.integer (2 ^ 32))] (2 ^ 32)
      (List.mem_singleton.mpr rfl) (Or.inr (by norm_num)),
   C6_expires_in_checked_narrowing.2 3600 (by norm_num) (by norm_num)⟩

theorem AccessTokenRequest.step_preserves_client_id :
    ∀ (l : List (Int × Value)), (∀ v : Value, (24, v) ∉ l) →
      ∀ (a : AccessTokenRequest) (e : Int × Value) (a' : AccessTokenRequest), e ∈ l →
        AccessTokenRequest.step a e = some a' →
        a.client_id = "" → a'.client_id = "" := by
  intro l h24 a e a' he h hp
  unfold AccessTokenRequest.step at h
  split at h <;>
    first
      | exact absurd he (h24 _)
      | (cases h; simpa using hp)
      | (split at h <;> first | (cases h; simpa using hp) | cases h)
      | cases h

theorem AccessTokenResponse.step_preserves_access_token :
    ∀ (l : List (Int × Value)), (∀ v : Value, (1, v) ∉ l) →
      ∀ (a : AccessTokenResponse) (e : Int × Value) (a' : AccessTokenResponse), e ∈ l →
        AccessTokenResponse.step a e = some a' →
        a.access_token = [] → a'.access_token = [] := by
  intro l h1 a e a' he h hp
  unfold AccessTokenResponse.step at h
  split at h <;>
    first
      | exact absurd he (h1 _)
      | (cases h; simpa using hp)
      | (split at h <;> first | (cases h; simpa using hp) | cases h)
      | cases h

/-- C7: decode does not enforce the protocol-required fields: an
`AccessTokenRequest` decoded from a sequence with no tag-24 entry has
`client_id = ""`, an `AccessTokenResponse` decoded from a sequence with no
tag-1 entry has the empty `access_token`, and such decodes do succeed
(last two conjuncts). -/
theorem C7_required_fields_not_enforced :
    (∀ (l : List (Int × Value)) (r : AccessTokenRequest),
      AccessTokenRequest.try_from_cbor_map l = some r →
      (∀ v : Value, (24, v) ∉ l) → r.client_id = "") ∧
    (∀ (l : List (Int × Value)) (r : AccessTokenResponse),
      AccessTokenResponse.try_from_cbor_map l = some r →
      (∀ v : Value, (1, v) ∉ l) → r.access_token = []) ∧
    AccessTokenRequest.try_from_cbor_map [(5, Value.text "aud")] =
      some { audience := some "aud" } ∧
    AccessTokenResponse.try_from_cbor_map [(37, Value.bytes [9])] =
      some { refresh_token := some [9] } := by
  refine ⟨?_, ?_, rfl, rfl⟩
  · intro l r h h24
    exact runPairs_preserve AccessTokenRequest.step (fun a => a.client_id = "")
      (AccessTokenRequest.step_preserves_client_id l h24) h rfl
  · intro l r h h1
    exact runPairs_preserve AccessTokenResponse.step (fun a => a.access_token = [])
      (AccessTokenResponse.step_preserves_access_token l h1) h rfl

/-- Witness for C7: the permissive decodes evaluated on concrete inputs
lacking tag 24 / tag 1. -/
theorem C7_required_fields_not_enforced_witness :
    (AccessTokenRequest.mk none (some "aud") none none none none none "").client_id = "" ∧
    (AccessTokenResponse.mk [] none none none (some [9]) none none none).access_token = [] :=
  ⟨C7_required_fields_not_enforced.1 [(5, Value.text "aud")]
      (AccessTokenRequest.mk none (some "aud") none none none none none "") rfl
      (by intro v hv; simp at hv),
   C7_required_fields_not_enforced.2.1 [(37, Value.bytes [9])]
      (AccessTokenResponse.mk [] none none none (some [9]) none none none) rfl
      (by intro v hv; simp at hv)⟩

/-- C8: a tag-9 scope pair carrying a text value decodes to the
`TextString` variant and one carrying a bytes value to the `ByteString`
variant, in every message type that has a scope field, and re-encoding the
decoded message emits the same variant at tag 9 again. -/
theorem C8_scope_variant_preserved :
    (∀ s : String,
      AuthServerRequestCreationHint.try_from_cbor_map [(9, Value.text s)] =
        some { scope := some (.TextString s) } ∧
      wirePairs (AuthServerRequestCreationHint.as_cbor_map
        { scope := some (.TextString s) }) = [(9, Value.text s)]) ∧
    (∀ b : ByteString,
      AuthServerRequestCreationHint.try_from_cbor_map [(9, Value.bytes b)] =
        some { scope := some (.ByteString b) } ∧
      wirePairs (AuthServerRequestCreationHint.as_cbor_map
        { scope := some (.ByteString b) }) = [(9, Value.bytes b)]) ∧
    (∀ s : String,
      AccessTokenRequest.try_from_cbor_map [(9, Value.text s)] =
        some { scope := some (.TextString s) } ∧
      wirePairs (AccessTokenRequest.as_cbor_map { scope := some (.TextString s) }) =
        [(9, Value.text s), (24, Value.text "")]) ∧
    (∀ b : ByteString,
      AccessTokenRequest.try_from_cbor_map [(9, Value.bytes b)] =
        some { scope := some (.ByteString b) } ∧
      wirePairs (AccessTokenRequest.as_cbor_map { scope := some (.ByteString b) }) =
        [(9, Value.bytes b), (24, Value.text "")]) ∧
    (∀ s : String,
      AccessTokenResponse.try_from_cbor_map [(9, Value.text s)] =
        some { scope := some (.TextString s) } ∧
      wirePairs (AccessTokenResponse.as_cbor_map { scope := some (.TextString s) }) =
        [(1, Value.bytes []), (9, Value.text s)]) ∧
    (∀ b : ByteString,
      AccessTokenResponse.try_from_cbor_map [(9, Value.bytes b)] =
        some { scope := some (.ByteString b) } ∧
      wirePairs (AccessTokenResponse.as_cbor_map { scope := some (.ByteString b) }) =
        [(1, Value.bytes []), (9, Value.bytes b)]) :=
  ⟨fun _ => ⟨rfl, rfl⟩, fun _ => ⟨rfl, rfl⟩, fun _ => ⟨rfl, rfl⟩,
   fun _ => ⟨rfl, rfl⟩, fun _ => ⟨rfl, rfl⟩, fun _ => ⟨rfl, rfl⟩⟩

theorem ErrorResponse.step_effect :
    ∀ (a : ErrorResponseAcc) (e : Int × Value) (a' : ErrorResponseAcc),
      ErrorResponse.step a e = some a' →
      a'.maybe_error = a.maybe_error ∨
      ∃ i : Int, e = (30, Value.integer i) ∧ 0 ≤ i ∧ i < 256 ∧
        a'.maybe_error = ErrorCode.try_from i.toNat := by
  intro a e a' h
  unfold ErrorResponse.step at h
  split at h
  · rename_i x
    split at h
    · rename_i hc
      cases h
      exact Or.inr ⟨x, rfl, hc.1, hc.2, rfl⟩
    · cases h
  · cases h
    exact Or.inl rfl
  · cases h
    exact Or.inl rfl
  · cases h

/-- C9: `ErrorResponse::try_from_cbor_map` succeeds only when the input
contains a tag-30 entry whose integer converts to a valid `ErrorCode`; an
input with no tag-30 entry decodes to `none`, while the description and
URI fields may be absent (last conjunct: a lone valid tag-30 entry
suffices). -/
theorem C9_error_code_required :
    (∀ (l : List (Int × Value)) (r : ErrorResponse),
      ErrorResponse.try_from_cbor_map l = some r →
      ∃ i : Int, (30, Value.integer i) ∈ l ∧
        ∃ c, ErrorCode.try_from_i128 i = some c) ∧
    (∀ l : List (Int × Value), (∀ v : Value, (30, v) ∉ l) →
      ErrorResponse.try_from_cbor_map l = none) ∧
    ErrorResponse.try_from_cbor_map [(30, Value.integer 1)] =
      some { error := .InvalidRequest } := by
  refine ⟨?_, ?_, rfl⟩
  · intro l r h
    unfold ErrorResponse.try_from_cbor_map at h
    cases hrun : runPairs ErrorResponse.step {} l with
    | none => rw [hrun] at h; cases h
    | some acc =>
      rw [hrun] at h
      have h' : acc.maybe_error.map
          (fun error => ErrorResponse.mk error acc.error_description acc.error_uri) =
          some r := h
      cases hme : acc.maybe_error with
      | none => rw [hme] at h'; cases h'
      | some c0 =>
        have hQ : (fun a : ErrorResponseAcc => a.maybe_error.isSome = true) acc := by
          show acc.maybe_error.isSome = true
          rw [hme]
          rfl
        have hnQ : ¬ (fun a : ErrorResponseAcc => a.maybe_error.isSome = true)
            ({} : ErrorResponseAcc) := by decide
        obtain ⟨e, he, a, a', hs, hna, ha⟩ :=
          runPairs_establish ErrorResponse.step
            (fun a => a.maybe_error.isSome = true) hrun hQ hnQ
        rcases ErrorResponse.step_effect a e a' hs with heq | ⟨i, rfl, h0, h256, hset⟩
        · rw [heq] at ha
          exact absurd ha hna
        · rw [hset] at ha
          obtain ⟨c, hc⟩ := Option.isSome_iff_exists.mp ha
          refine ⟨i, he, c, ?_⟩
          unfold ErrorCode.try_from_i128
          rw [if_pos ⟨h0, h256⟩]
          exact hc
  · intro l h30
    unfold ErrorResponse.try_from_cbor_map
    cases hrun : runPairs ErrorResponse.step {} l with
    | none => rfl
    | some acc =>
      have hend : acc.maybe_error = none := by
        refine runPairs_preserve ErrorResponse.step
          (fun a => a.maybe_error = none) ?_ hrun rfl
        intro a e a' he hs hp
        rcases ErrorResponse.step_effect a e a' hs with heq | ⟨i, rfl, _, _, _⟩
        · rw [heq, hp]
        · exact absurd he (h30 _)
      have h' : acc.maybe_error.map
          (fun error => ErrorResponse.mk error acc.error_description acc.error_uri) =
          none := by rw [hend]; rfl
      exact h'

/-- Witness for C9: the required-field characterization applied to a
decodable one-entry input, and failure on an input holding only a
description. -/
theorem C9_error_code_required_witness :
    (∃ i : Int, (30, Value.integer i) ∈ ([(30, Value.integer 1)] : List (Int × Value)) ∧
      ∃ c, ErrorCode.try_from_i128 i = some c) ∧
    ErrorResponse.try_from_cbor_map [(31, Value.text "d")] = none :=
  ⟨C9_error_code_required.1 [(30, Value.integer 1)] { error := .InvalidRequest } rfl,
   C9_error_code_required.2.1 [(31, Value.text "d")] (by intro v hv; simp at hv)⟩

/-- C10: an in-range but invalid integer at tag 30 does not abort the
iteration — the last tag-30 entry determines the outcome, so an invalid
code followed by a valid one decodes, a valid one followed by an invalid
one (or a lone invalid one) yields `none` — whereas a tag-30 integer that
does not fit in 8 bits makes the decode return `none` outright. -/
theorem C10_last_tag30_entry_wins :
    ErrorResponse.try_from_cbor_map [(30, Value.integer 0), (30, Value.integer 1)] =
      some { error := .InvalidRequest } ∧
    ErrorResponse.try_from_cbor_map [(30, Value.integer 1), (30, Value.integer 0)] =
      none ∧
    ErrorResponse.try_from_cbor_map [(30, Value.integer 0)] = none ∧
    (∀ (l : List (Int × Value)) (i : Int), (30, Value.integer i) ∈ l →
      (i < 0 ∨ 256 ≤ i) → ErrorResponse.try_from_cbor_map l = none) := by
  refine ⟨rfl, rfl, rfl, ?_⟩
  intro l i hm hr
  have hstep : ∀ a, ErrorResponse.step a (30, Value.integer i) = none := by
    intro a
    simp only [ErrorResponse.step]
    rw [if_neg (by omega : ¬((0 : Int) ≤ i ∧ i < 256))]
  unfold ErrorResponse.try_from_cbor_map
  rw [runPairs_none_of_mem _ hm hstep _]
  rfl

/-- Witness for C10: 256 does not fit in 8 bits, so a lone (30, 256) entry
fails at once. -/
theorem C10_last_tag30_entry_wins_witness :
    ErrorResponse.try_from_cbor_map [(30, Value.integer 256)] = none :=
  C10_last_tag30_entry_wins.2.2.2 [(30, Value.integer 256)] 256
    (List.mem_singleton.mpr rfl) (Or.inr (by norm_num))

end Dcaf
